import Mathlib

/-!
Verification of the semantic prompt-cache core of this repository.

The embedding below follows the TypeScript source:
* `src/types.ts`   — the data model (`CachedEntry`, `VectorSearchResult`);
* `src/redis.ts`   — the vector store (`RedisVectorStore.store`,
  `RedisVectorStore.searchSimilar`, `RedisVectorStore.cosineSimilarity`);
* `src/cache.ts`   — the cache layer (`PromptCache.generateEmbedding`,
  `PromptCache.findSimilarCache`, `PromptCache.cacheResponse`,
  `PromptCache.generateId`).

JavaScript floating-point numbers are idealised as real numbers; Redis is
modelled as an association list of key/value pairs threaded through every
command, so that reads and writes of the backing store are explicit.  The
embedding provider (`env.AI.run` on the embedding model) is an injected
function that may fail, modelling a thrown provider exception with `Except`.
Each cache-layer operation also returns the list of texts it sent to the
embedding provider, which makes the number of provider invocations
observable.
-/

/-- `CachedEntry` from `src/types.ts`: one cached prompt/response pair. -/
structure CachedEntry where
  prompt : String
  embedding : List ℝ
  response : String
  timestamp : Nat
  model : String

/-- `VectorSearchResult` from `src/types.ts`: one similarity match. -/
structure VectorSearchResult where
  id : String
  score : ℝ
  data : CachedEntry

/-- A value stored under a Redis key.  `JSON.SET` performed by the store
writes `entry e` (the JSON serialisation of `e`, which parses back to `e`);
`corrupt` stands for any payload on which `JSON.parse`/field access throws
(the `catch` path of `searchSimilar`). -/
inductive StoredJson where
  | entry (e : CachedEntry)
  | corrupt

/-- The Redis database: an association list from keys to stored payloads.
The list order is the (unspecified) enumeration order that `KEYS` reports. -/
abbrev RedisState := List (String × StoredJson)

/-- The glob pattern `cache:*` used by `KEYS`: keys beginning with
`cache:`. -/
def matchesCachePattern (k : String) : Bool :=
  "cache:".data.isPrefixOf k.data

/-- The Redis command `["KEYS", "cache:*"]`: reports all matching keys and
leaves the database unchanged. -/
def keysCmd (st : RedisState) : List String × RedisState :=
  ((st.map Prod.fst).filter matchesCachePattern, st)

/-- The Redis command `["JSON.GET", k]`: reports the payload stored at `k`
(if any) and leaves the database unchanged. -/
def jsonGet (k : String) (st : RedisState) : Option StoredJson × RedisState :=
  ((st.find? fun p => p.1 == k).map Prod.snd, st)

/-- The Redis command `["JSON.SET", k, "$", v]`: overwrites the payload at
`k` if the key exists, otherwise adds the binding. -/
def jsonSet (k : String) (v : StoredJson) (st : RedisState) : RedisState :=
  if st.any (fun p => p.1 == k) then
    st.map fun p => if p.1 == k then (k, v) else p
  else st ++ [(k, v)]

/-- `RedisVectorStore.store` (`src/redis.ts`): serialise the entry and issue
`JSON.SET cache:<id> $ <json>`.  The source performs no validation of the
entry; its only failure mode is a transport error from the REST call, which
is outside this model. -/
def RedisVectorStore.store (id : String) (entry : CachedEntry)
    (st : RedisState) : RedisState :=
  jsonSet ("cache:" ++ id) (.entry entry) st

/-- `dotProduct` accumulated by the loop of `cosineSimilarity`. -/
def dotProduct (a b : List ℝ) : ℝ :=
  (List.zipWith (· * ·) a b).sum

/-- `normA` / `normB` accumulated by the loop of `cosineSimilarity`: the sum
of the squares of the components. -/
def normSq (a : List ℝ) : ℝ :=
  (a.map fun x => x * x).sum

/-- `RedisVectorStore.cosineSimilarity` (`src/redis.ts`): returns `0` on a
length mismatch, computes `dotProduct`, `normA`, `normB` in one pass, and
returns `0` when `Math.sqrt(normA) * Math.sqrt(normB)` is zero, otherwise
the quotient. -/
noncomputable def cosineSimilarity (a b : List ℝ) : ℝ :=
  if a.length ≠ b.length then 0
  else if Real.sqrt (normSq a) * Real.sqrt (normSq b) = 0 then 0
  else dotProduct a b / (Real.sqrt (normSq a) * Real.sqrt (normSq b))

/-- The comparator `(a, b) => b.score - a.score` passed to
`Array.prototype.sort`: `a` precedes `b` exactly when `b.score ≤ a.score`. -/
def scoreDescOrder (a b : VectorSearchResult) : Prop :=
  b.score ≤ a.score

noncomputable instance : DecidableRel scoreDescOrder :=
  fun a b => inferInstanceAs (Decidable (b.score ≤ a.score))

instance : IsTotal VectorSearchResult scoreDescOrder :=
  ⟨fun a b => le_total b.score a.score⟩

instance : IsTrans VectorSearchResult scoreDescOrder :=
  ⟨fun _ _ _ hab hbc => le_trans hbc hab⟩

/-- The `for (const key of keys)` loop of `searchSimilar`: fetch each key's
payload with `JSON.GET`, skip missing (`if (!entryJson) continue`) and
undecodable (`catch { continue }`) payloads, and collect a result for every
decodable entry whose similarity reaches the threshold, in enumeration
order. -/
noncomputable def searchLoop (emb : List ℝ) (threshold : ℝ) :
    List String → RedisState → List VectorSearchResult × RedisState
  | [], st => ([], st)
  | k :: ks, st =>
    let got := jsonGet k st
    match got.1 with
    | none => searchLoop emb threshold ks got.2
    | some .corrupt => searchLoop emb threshold ks got.2
    | some (.entry e) =>
      let similarity := cosineSimilarity emb e.embedding
      let rest := searchLoop emb threshold ks got.2
      if threshold ≤ similarity then
        ({ id := k, score := similarity, data := e } :: rest.1, rest.2)
      else rest

/-- `RedisVectorStore.searchSimilar` (`src/redis.ts`): enumerate the keys
matching `cache:*`, return `[]` if there are none, otherwise score every
record, keep those with `similarity >= threshold`, sort descending by score
(`Array.prototype.sort` is stable, modelled by a stable insertion sort) and
return the first `limit` results. -/
noncomputable def searchSimilar (emb : List ℝ) (threshold : ℝ) (limit : Nat)
    (st : RedisState) : List VectorSearchResult × RedisState :=
  let keysOut := keysCmd st
  if keysOut.1.isEmpty then ([], keysOut.2)
  else
    let looped := searchLoop emb threshold keysOut.1 keysOut.2
    ((looped.1.insertionSort scoreDescOrder).take limit, looped.2)

/-- The embedding provider: `env.AI.run` applied to the embedding model, as
used by `PromptCache.generateEmbedding` (`src/cache.ts`).  A call either
yields the vector `response.data[0]` or throws, modelled by `Except`. -/
structure EmbeddingProvider where
  run : String → Except String (List ℝ)

/-- `PromptCache.generateEmbedding` (`src/cache.ts`): one provider call for
the given text; the second component records the text sent to the
provider. -/
def generateEmbedding (ai : EmbeddingProvider) (text : String) :
    Except String (List ℝ) × List String :=
  (ai.run text, [text])

/-- The value returned by a successful `findSimilarCache`: the best match's
entry and score, per `return { entry: best.data, similarity: best.score }`. -/
structure LookupHit where
  entry : CachedEntry
  similarity : ℝ

/-- The full outcome of one `findSimilarCache` call: its return value (or
the propagated provider exception), the texts sent to the embedding
provider, and the Redis database after the call. -/
structure LookupOut where
  result : Except String (Option LookupHit)
  calls : List String
  state : RedisState

/-- `PromptCache.findSimilarCache` (`src/cache.ts`): embed the prompt (a
thrown provider error propagates), search Redis with the configured
threshold and `limit = 1`, and return `null` on no results, otherwise the
first result.  A miss returns `null` only — the computed embedding is not
part of the return value. -/
noncomputable def findSimilarCache (ai : EmbeddingProvider)
    (similarityThreshold : ℝ) (prompt : String) (st : RedisState) :
    LookupOut :=
  match (generateEmbedding ai prompt).1 with
  | .error err => ⟨.error err, [prompt], st⟩
  | .ok embedding =>
    match searchSimilar embedding similarityThreshold 1 st with
    | ([], st2) => ⟨.ok none, [prompt], st2⟩
    | (best :: _, st2) => ⟨.ok (some ⟨best.data, best.score⟩), [prompt], st2⟩

/-- The 32-bit signed wrap-around applied by JavaScript bitwise operators
(`<< 5` and `& hash` in `generateId`). -/
def toInt32 (n : ℤ) : ℤ :=
  (n + 2 ^ 31) % 2 ^ 32 - 2 ^ 31

/-- One step of the loop of `PromptCache.generateId`:
`hash = (hash << 5) - hash + char; hash = hash & hash`. -/
def jsHashStep (hash : ℤ) (c : Nat) : ℤ :=
  toInt32 (toInt32 (hash * 2 ^ 5) - hash + c)

/-- The hash loop of `PromptCache.generateId` over the prompt's
characters. -/
def jsHash (s : String) : ℤ :=
  s.data.foldl (fun h ch => jsHashStep h ch.toNat) 0

/-- `PromptCache.generateId` (`src/cache.ts`):
`` `${Math.abs(hash)}_${Date.now()}` ``.  The ambient clock `Date.now()` is
passed in as `now`. -/
def generateId (prompt : String) (now : Nat) : String :=
  toString (jsHash prompt).natAbs ++ "_" ++ toString now

/-- The full outcome of one `cacheResponse` call: the updated Redis
database (or the propagated provider exception) and the texts sent to the
embedding provider. -/
structure StoreOut where
  result : Except String RedisState
  calls : List String

/-- `PromptCache.cacheResponse` (`src/cache.ts`): embed the prompt again (a
fresh provider call — no embedding is received from a prior lookup), build
the `CachedEntry`, generate an id and store the entry.  `Date.now()` is
passed in as `now`. -/
noncomputable def cacheResponse (ai : EmbeddingProvider)
    (prompt response model : String) (now : Nat) (st : RedisState) :
    StoreOut :=
  match (generateEmbedding ai prompt).1 with
  | .error err => ⟨.error err, [prompt]⟩
  | .ok embedding =>
    let entry : CachedEntry :=
      ⟨prompt, embedding, response, now, model⟩
    ⟨.ok (RedisVectorStore.store (generateId prompt now) entry st), [prompt]⟩

/-- The store-then-lookup composition on an initially empty cache:
`cacheResponse(p, r, m)` followed by `findSimilarCache(p)`, as exercised by
the `/chat` handler across two requests. -/
noncomputable def roundTrip (ai : EmbeddingProvider)
    (similarityThreshold : ℝ) (prompt response model : String) (now : Nat) :
    Except String (Option LookupHit) :=
  match (cacheResponse ai prompt response model now []).result with
  | .error err => .error err
  | .ok st => (findSimilarCache ai similarityThreshold prompt st).result

/-! ### Basic facts about the similarity computation -/

lemma normSq_nonneg (a : List ℝ) : 0 ≤ normSq a := by
  refine List.sum_nonneg ?_
  intro x hx
  rcases List.mem_map.mp hx with ⟨y, _, rfl⟩
  exact mul_self_nonneg y

lemma dotProduct_self (a : List ℝ) : dotProduct a a = normSq a := by
  unfold dotProduct normSq
  induction a with
  | nil => simp
  | cons x xs ih => simp_all [List.zipWith, List.sum_cons]

lemma cosineSimilarity_self {a : List ℝ} (h : normSq a ≠ 0) :
    cosineSimilarity a a = 1 := by
  have hnn := normSq_nonneg a
  unfold cosineSimilarity
  rw [if_neg (by simp), if_neg, dotProduct_self,
    Real.mul_self_sqrt hnn, div_self h]
  rw [Real.mul_self_sqrt hnn]
  exact h

lemma cosineSimilarity_zero_left {a : List ℝ} (b : List ℝ)
    (h : normSq a = 0) : cosineSimilarity a b = 0 := by
  unfold cosineSimilarity
  by_cases hl : a.length ≠ b.length
  · rw [if_pos hl]
  · rw [if_neg hl, if_pos (by rw [h, Real.sqrt_zero, zero_mul])]

lemma cosineSimilarity_zero_right (a : List ℝ) {b : List ℝ}
    (h : normSq b = 0) : cosineSimilarity a b = 0 := by
  unfold cosineSimilarity
  by_cases hl : a.length ≠ b.length
  · rw [if_pos hl]
  · rw [if_neg hl, if_pos (by rw [h, Real.sqrt_zero, mul_zero])]

lemma cosineSimilarity_length_ne {a b : List ℝ}
    (h : a.length ≠ b.length) : cosineSimilarity a b = 0 := by
  unfold cosineSimilarity
  rw [if_pos h]

/-- **C5.** Totality of cosine similarity: the computation returns `0` when
the two vectors differ in length, and returns `0` when either vector has
zero magnitude (zero sum of squares), so the quotient is only ever formed
with a nonzero denominator; a length-mismatched record scores `0` instead
of raising an error. -/
theorem c5_cosine_similarity_total (a b : List ℝ) :
    (a.length ≠ b.length → cosineSimilarity a b = 0) ∧
    (normSq a = 0 → cosineSimilarity a b = 0) ∧
    (normSq b = 0 → cosineSimilarity a b = 0) :=
  ⟨fun h => cosineSimilarity_length_ne h,
   fun h => cosineSimilarity_zero_left b h,
   fun h => cosineSimilarity_zero_right a h⟩

/-- Witness for C5 at concrete inputs: `[1]` against `[1, 2]` mismatch in
length, and `[0]` has zero magnitude. -/
theorem c5_cosine_similarity_total_witness :
    cosineSimilarity [(1 : ℝ)] [1, 2] = 0 ∧
    cosineSimilarity [(0 : ℝ)] [5] = 0 :=
  ⟨(c5_cosine_similarity_total [(1 : ℝ)] [1, 2]).1 (by simp),
   (c5_cosine_similarity_total [(0 : ℝ)] [5]).2.1 (by simp [normSq])⟩

/-! ### The store operation writes unconditionally -/

lemma find?_map_of_any {k : String} {v : StoredJson} :
    ∀ {st : RedisState}, st.any (fun p => p.1 == k) = true →
      (st.map fun p => if p.1 == k then (k, v) else p).find?
        (fun p => p.1 == k) = some (k, v) := by
  intro st
  induction st with
  | nil => simp
  | cons a l ih =>
    intro h
    by_cases ha : a.1 == k
    · simp [List.find?, ha]
    · have h' : l.any (fun p => p.1 == k) = true := by
        simpa [List.any_cons, ha] using h
      have ha' : (a.1 == k) = false := by simpa using ha
      simp only [List.map_cons, ha', Bool.false_eq_true, if_false]
      rw [List.find?_cons_of_neg _ (by simp [ha'])]
      exact ih h'

lemma find?_append_of_not_any {k : String} {v : StoredJson} :
    ∀ {st : RedisState}, st.any (fun p => p.1 == k) = false →
      (st ++ [(k, v)]).find? (fun p => p.1 == k) = some (k, v) := by
  intro st
  induction st with
  | nil => simp
  | cons a l ih =>
    intro h
    have ha : (a.1 == k) = false := by
      by_contra hc
      simp [List.any_cons, eq_true_of_ne_false hc] at h
    have h' : l.any (fun p => p.1 == k) = false := by
      simpa [List.any_cons, ha] using h
    rw [List.cons_append, List.find?_cons_of_neg _ (by simp [ha])]
    exact ih h'

lemma find?_jsonSet (k : String) (v : StoredJson) (st : RedisState) :
    (jsonSet k v st).find? (fun p => p.1 == k) = some (k, v) := by
  unfold jsonSet
  by_cases h : st.any (fun p => p.1 == k)
  · rw [if_pos h]
    exact find?_map_of_any h
  · rw [if_neg h]
    exact find?_append_of_not_any (Bool.eq_false_iff.mpr h)

lemma jsonGet_jsonSet (k : String) (v : StoredJson) (st : RedisState) :
    (jsonGet k (jsonSet k v st)).1 = some v := by
  unfold jsonGet
  rw [find?_jsonSet]
  rfl

/-- **C6 (amended).** `RedisVectorStore.store` performs no validation: for
every record, including one whose embedding is the empty vector, it
unconditionally writes the entry under `cache:<id>`, where it is
subsequently readable. -/
theorem c6_store_writes_unconditionally (id : String) (e : CachedEntry)
    (st : RedisState) :
    (jsonGet ("cache:" ++ id) (RedisVectorStore.store id e st)).1 =
      some (.entry e) :=
  jsonGet_jsonSet _ _ st

/-- **C6, counterexample to the claim as stated.**  Storing a record whose
embedding is the empty vector does not fail: the record is written to the
(initially empty) database.  No `StoreError(Invalid)` exists in the code —
`store`'s only step is the unconditional `JSON.SET`. -/
theorem c6_counterexample_empty_embedding_stored :
    RedisVectorStore.store "a" ⟨"p", [], "r", 0, "m"⟩ [] =
      [("cache:a", .entry ⟨"p", [], "r", 0, "m"⟩)] := by
  simp [RedisVectorStore.store, jsonSet]

/-! ### Evaluating the search on small concrete stores -/

lemma isPrefixOf_append_self (a t : List Char) :
    a.isPrefixOf (a ++ t) = true := by
  induction a with
  | nil => simp [List.isPrefixOf]
  | cons x xs ih => simp [List.isPrefixOf, ih]

lemma matchesCachePattern_append (s : String) :
    matchesCachePattern ("cache:" ++ s) = true := by
  show ("cache:".data.isPrefixOf ("cache:".data ++ s.data)) = true
  exact isPrefixOf_append_self _ _

lemma store_nil (id : String) (e : CachedEntry) :
    RedisVectorStore.store id e [] = [("cache:" ++ id, .entry e)] := by
  simp [RedisVectorStore.store, jsonSet]

lemma searchLoop_nil (emb : List ℝ) (threshold : ℝ) (st : RedisState) :
    searchLoop emb threshold [] st = ([], st) := rfl

lemma searchLoop_singleton_entry (emb : List ℝ) (threshold : ℝ)
    (k : String) (e : CachedEntry) :
    searchLoop emb threshold [k] [(k, .entry e)] =
      if threshold ≤ cosineSimilarity emb e.embedding then
        ([⟨k, cosineSimilarity emb e.embedding, e⟩], [(k, .entry e)])
      else ([], [(k, .entry e)]) := by
  have hfind : (List.find? (fun p => p.1 == k) [(k, StoredJson.entry e)]) =
      some (k, StoredJson.entry e) := by simp
  unfold searchLoop
  simp only [jsonGet, hfind, Option.map_some', searchLoop_nil]

lemma keysCmd_singleton (s : String) (v : StoredJson) :
    keysCmd [("cache:" ++ s, v)] = (["cache:" ++ s], [("cache:" ++ s, v)]) := by
  simp [keysCmd, List.filter, matchesCachePattern_append]

lemma searchSimilar_singleton_entry (emb : List ℝ) (threshold : ℝ)
    (s : String) (e : CachedEntry) :
    searchSimilar emb threshold 1 [("cache:" ++ s, .entry e)] =
      ((if threshold ≤ cosineSimilarity emb e.embedding then
          [⟨"cache:" ++ s, cosineSimilarity emb e.embedding, e⟩]
        else []), [("cache:" ++ s, .entry e)]) := by
  unfold searchSimilar
  rw [keysCmd_singleton]
  simp only [List.isEmpty_cons, Bool.false_eq_true, if_false,
    searchLoop_singleton_entry]
  by_cases h : threshold ≤ cosineSimilarity emb e.embedding
  · simp only [if_pos h]
    simp [List.insertionSort, List.orderedInsert]
  · simp only [if_neg h]
    simp [List.insertionSort]

lemma findSimilarCache_store_nil (ai : EmbeddingProvider) (threshold : ℝ)
    (p r m : String) (now : Nat) (emb qemb : List ℝ)
    (hrun : ai.run p = .ok qemb) :
    (findSimilarCache ai threshold p
        (RedisVectorStore.store (generateId p now)
          ⟨p, emb, r, now, m⟩ [])).result =
      if threshold ≤ cosineSimilarity qemb emb then
        .ok (some ⟨⟨p, emb, r, now, m⟩, cosineSimilarity qemb emb⟩)
      else .ok none := by
  unfold findSimilarCache generateEmbedding
  rw [store_nil]
  simp only [hrun]
  rw [searchSimilar_singleton_entry]
  by_cases h : threshold ≤ cosineSimilarity qemb emb
  · simp only [if_pos h]
  · simp only [if_neg h]

lemma roundTrip_eval (emb : List ℝ) (threshold : ℝ) (p r m : String)
    (now : Nat) :
    roundTrip ⟨fun _ => .ok emb⟩ threshold p r m now =
      if threshold ≤ cosineSimilarity emb emb then
        .ok (some ⟨⟨p, emb, r, now, m⟩, cosineSimilarity emb emb⟩)
      else .ok none := by
  unfold roundTrip cacheResponse generateEmbedding
  exact findSimilarCache_store_nil _ _ _ _ _ _ _ _ rfl

/-- **C1 (amended).** Round-trip: if the provider's embedding of `p` has
nonzero magnitude, then for any threshold at most `1.0`,
`cacheResponse(p, r, m)` on an empty cache followed by
`findSimilarCache(p)` yields a hit whose entry is the stored record (so its
response is `r`) with self-match similarity exactly `1`. -/
theorem c1_round_trip_hit (emb : List ℝ) (threshold : ℝ) (p r m : String)
    (now : Nat) (hth : threshold ≤ 1) (hnz : normSq emb ≠ 0) :
    roundTrip ⟨fun _ => .ok emb⟩ threshold p r m now =
      .ok (some ⟨⟨p, emb, r, now, m⟩, 1⟩) := by
  rw [roundTrip_eval, cosineSimilarity_self hnz, if_pos hth]

/-- Witness for C1 at a concrete input: embedding `[1]`, threshold `0.85`. -/
theorem c1_round_trip_hit_witness :
    roundTrip ⟨fun _ => .ok [(1 : ℝ)]⟩ 0.85 "a" "b" "m" 0 =
      .ok (some ⟨⟨"a", [(1 : ℝ)], "b", 0, "m"⟩, 1⟩) :=
  c1_round_trip_hit [(1 : ℝ)] 0.85 "a" "b" "m" 0 (by norm_num)
    (by simp [normSq])

/-- **C1, counterexample to the claim as stated.**  With a provider whose
embedding of the prompt is the zero vector `[0]`, the self-match similarity
is `0`, not `1`: storing and then looking up the same prompt misses for the
threshold `0.85 ≤ 1.0`, so the round-trip property does not hold for every
prompt and every provider embedding. -/
theorem c1_counterexample_zero_embedding :
    (0.85 : ℝ) ≤ 1 ∧
      roundTrip ⟨fun _ => .ok [(0 : ℝ)]⟩ 0.85 "a" "b" "m" 0 = .ok none := by
  constructor
  · norm_num
  · rw [roundTrip_eval, cosineSimilarity_zero_left _ (by simp [normSq]),
      if_neg (by norm_num)]

/-! ### Provider failure and provider call counts -/

lemma findSimilarCache_nil_state (ai : EmbeddingProvider) (threshold : ℝ)
    (p : String) (emb : List ℝ) (hrun : ai.run p = .ok emb) :
    findSimilarCache ai threshold p [] = ⟨.ok none, [p], []⟩ := by
  unfold findSimilarCache generateEmbedding
  rw [hrun]
  rfl

lemma findSimilarCache_calls (ai : EmbeddingProvider) (threshold : ℝ)
    (p : String) (st : RedisState) :
    (findSimilarCache ai threshold p st).calls = [p] := by
  unfold findSimilarCache generateEmbedding
  cases h : ai.run p with
  | error err => rfl
  | ok emb =>
    dsimp only
    cases hs : searchSimilar emb threshold 1 st with
    | mk res st2 => cases res <;> rfl

lemma cacheResponse_calls (ai : EmbeddingProvider) (p r m : String)
    (now : Nat) (st : RedisState) :
    (cacheResponse ai p r m now st).calls = [p] := by
  unfold cacheResponse generateEmbedding
  cases h : ai.run p <;> rfl

/-- **C7 (amended).** If the embedding provider errors during a lookup, the
error propagates out of `findSimilarCache` (no silent miss).  The code
performs no validation of the returned vector's shape, however — see the
counterexample. -/
theorem c7_provider_error_propagates (ai : EmbeddingProvider)
    (threshold : ℝ) (p : String) (st : RedisState) (err : String)
    (h : ai.run p = .error err) :
    (findSimilarCache ai threshold p st).result = .error err := by
  unfold findSimilarCache generateEmbedding
  rw [h]

/-- Witness for C7: a provider that always throws. -/
theorem c7_provider_error_propagates_witness :
    (findSimilarCache ⟨fun _ => .error "boom"⟩ 0.85 "q" []).result =
      .error "boom" :=
  c7_provider_error_propagates ⟨fun _ => .error "boom"⟩ 0.85 "q" [] "boom" rfl

/-- **C7, counterexample to the claim as stated.**  A provider that returns
an empty vector (an "unexpected shape") does not cause any `LookupError`:
the lookup silently reports a miss, because the empty query scores `0`
against the stored record's length-1 embedding. -/
theorem c7_counterexample_empty_vector_silent_miss :
    (findSimilarCache ⟨fun _ => .ok []⟩ 0.85 "q"
        [("cache:" ++ "g", .entry ⟨"p", [(1 : ℝ)], "r", 0, "m"⟩)]).result =
      .ok none := by
  unfold findSimilarCache generateEmbedding
  dsimp only
  rw [searchSimilar_singleton_entry,
    cosineSimilarity_length_ne (by simp), if_neg (by norm_num)]

/-- **C4 (amended).** In a request cycle in which `findSimilarCache(p)`
misses and the caller then invokes `cacheResponse` for the same prompt `p`,
the embedding provider is invoked exactly twice for `p`: the miss result
carries no embedding, and the store re-embeds the prompt. -/
theorem c4_miss_then_store_embeds_twice (ai : EmbeddingProvider)
    (threshold : ℝ) (p r m : String) (now : Nat) (st : RedisState)
    (_hmiss : (findSimilarCache ai threshold p st).result = .ok none) :
    ((findSimilarCache ai threshold p st).calls ++
        (cacheResponse ai p r m now st).calls).count p = 2 := by
  rw [findSimilarCache_calls, cacheResponse_calls]
  simp [List.count_append, List.count_cons]

/-- Witness for C4's amended claim at a concrete miss. -/
theorem c4_miss_then_store_embeds_twice_witness :
    (findSimilarCache ⟨fun _ => .ok [(1 : ℝ)]⟩ 0.85 "a" []).result =
        .ok none ∧
      ((findSimilarCache ⟨fun _ => .ok [(1 : ℝ)]⟩ 0.85 "a" []).calls ++
          (cacheResponse ⟨fun _ => .ok [(1 : ℝ)]⟩ "a" "r" "m" 0 []).calls).count
        "a" = 2 := by
  have hmiss : (findSimilarCache ⟨fun _ => .ok [(1 : ℝ)]⟩ 0.85 "a"
      ([] : RedisState)).result = .ok none := by
    rw [findSimilarCache_nil_state _ _ _ [(1 : ℝ)] rfl]
  exact ⟨hmiss,
    c4_miss_then_store_embeds_twice ⟨fun _ => .ok [(1 : ℝ)]⟩ 0.85 "a" "r" "m"
      0 [] hmiss⟩

/-- **C4, counterexample to the claim as stated.**  On a miss-then-store
cycle for the prompt `"a"`, the provider receives `"a"` twice — once from
`findSimilarCache` and once from `cacheResponse` — so it is not invoked "at
most once" per request cycle. -/
theorem c4_counterexample_embeds_twice_not_once :
    (findSimilarCache ⟨fun _ => .ok [(2 : ℝ)]⟩ 0.9 "a" []).result =
        .ok none ∧
      ¬ (((findSimilarCache ⟨fun _ => .ok [(2 : ℝ)]⟩ 0.9 "a" []).calls ++
          (cacheResponse ⟨fun _ => .ok [(2 : ℝ)]⟩ "a" "r" "m" 0 []).calls).count
        "a" ≤ 1) := by
  have hmiss : (findSimilarCache ⟨fun _ => .ok [(2 : ℝ)]⟩ 0.9 "a"
      ([] : RedisState)).result = .ok none := by
    rw [findSimilarCache_nil_state _ _ _ [(2 : ℝ)] rfl]
  refine ⟨hmiss, ?_⟩
  rw [findSimilarCache_calls, cacheResponse_calls]
  simp [List.count_append, List.count_cons]

/-! ### Membership, ordering and state preservation of the search -/

lemma searchLoop_state (emb : List ℝ) (threshold : ℝ) :
    ∀ (ks : List String) (st : RedisState),
      (searchLoop emb threshold ks st).2 = st := by
  intro ks
  induction ks with
  | nil => intro st; rfl
  | cons k ks ih =>
    intro st
    rw [searchLoop]
    simp only [jsonGet]
    cases hj : (st.find? fun p => p.1 == k).map Prod.snd with
    | none => exact ih st
    | some v =>
      cases v with
      | corrupt => exact ih st
      | entry e =>
        by_cases h : threshold ≤ cosineSimilarity emb e.embedding
        · simp only [if_pos h]
          exact ih st
        · simp only [if_neg h]
          exact ih st

lemma searchSimilar_state (emb : List ℝ) (threshold : ℝ) (limit : Nat)
    (st : RedisState) : (searchSimilar emb threshold limit st).2 = st := by
  rw [searchSimilar]
  simp only [keysCmd]
  split
  · rfl
  · exact searchLoop_state emb threshold _ st

lemma mem_searchLoop_score (emb : List ℝ) (threshold : ℝ) :
    ∀ (ks : List String) (st : RedisState) (r : VectorSearchResult),
      r ∈ (searchLoop emb threshold ks st).1 → threshold ≤ r.score := by
  intro ks
  induction ks with
  | nil => intro st r hr; simp [searchLoop] at hr
  | cons k ks ih =>
    intro st r hr
    rw [searchLoop] at hr
    simp only [jsonGet] at hr
    cases hj : (st.find? fun p => p.1 == k).map Prod.snd with
    | none =>
      rw [hj] at hr
      exact ih st r hr
    | some v =>
      rw [hj] at hr
      cases v with
      | corrupt => exact ih st r hr
      | entry e =>
        by_cases h : threshold ≤ cosineSimilarity emb e.embedding
        · simp only [if_pos h] at hr
          rcases List.mem_cons.mp hr with heq | hr'
          · rw [heq]
            exact h
          · exact ih st r hr'
        · simp only [if_neg h] at hr
          exact ih st r hr

/-- **C2.** Threshold filter: every match returned by `searchSimilar` has
`score >= threshold`; a record scoring strictly below the threshold is
never returned. -/
theorem c2_search_respects_threshold (emb : List ℝ) (threshold : ℝ)
    (limit : Nat) (st : RedisState) (r : VectorSearchResult)
    (hr : r ∈ (searchSimilar emb threshold limit st).1) :
    threshold ≤ r.score := by
  rw [searchSimilar] at hr
  simp only [keysCmd] at hr
  rw [apply_ite Prod.fst] at hr
  split at hr
  · simp at hr
  · exact mem_searchLoop_score emb threshold _ _ r
      ((List.mem_insertionSort scoreDescOrder).mp (List.take_subset _ _ hr))

/-- Witness for C2: with threshold `0` and one stored unit vector, the
single returned match indeed scores at least the threshold. -/
theorem c2_search_respects_threshold_witness :
    (0 : ℝ) ≤
      (⟨"cache:" ++ "w", cosineSimilarity [(1 : ℝ)] [(1 : ℝ)],
        ⟨"pw", [(1 : ℝ)], "rw", 0, "mw"⟩⟩ : VectorSearchResult).score := by
  refine c2_search_respects_threshold [(1 : ℝ)] 0 1
    [("cache:" ++ "w", .entry ⟨"pw", [(1 : ℝ)], "rw", 0, "mw"⟩)] _ ?_
  rw [searchSimilar_singleton_entry]
  have h1 : cosineSimilarity [(1 : ℝ)] [(1 : ℝ)] = 1 :=
    cosineSimilarity_self (by simp [normSq])
  rw [if_pos (by rw [h1]; norm_num)]
  exact List.mem_singleton.mpr rfl

/-- **C3 (amended).** The sequence returned by `searchSimilar` is sorted
descending by score.  No order is guaranteed between equal-score matches
beyond stability of the sort: the code applies no id tie-break (see the
counterexample). -/
theorem c3_search_sorted_descending (emb : List ℝ) (threshold : ℝ)
    (limit : Nat) (st : RedisState) :
    List.Pairwise scoreDescOrder (searchSimilar emb threshold limit st).1 := by
  rw [searchSimilar]
  simp only [keysCmd]
  rw [apply_ite Prod.fst]
  split
  · exact List.Pairwise.nil
  · exact ((List.sorted_insertionSort scoreDescOrder _).sublist
      (List.take_sublist _ _))

/-- **C3, counterexample to the claim as stated.**  Two stored records with
identical embeddings (hence equal scores) are returned in the
store-enumeration order `cache:b`, `cache:a`, which is strictly descending
in id — not the ascending id order the claim requires for ties. -/
theorem c3_counterexample_ties_not_ascending_by_id :
    ((searchSimilar [(1 : ℝ)] 0 2
          [("cache:" ++ "b", .entry ⟨"pb", [(1 : ℝ)], "rb", 0, "m"⟩),
           ("cache:" ++ "a", .entry ⟨"pa", [(1 : ℝ)], "ra", 0, "m"⟩)]).1.map
        VectorSearchResult.id = ["cache:" ++ "b", "cache:" ++ "a"]) ∧
      ((searchSimilar [(1 : ℝ)] 0 2
          [("cache:" ++ "b", .entry ⟨"pb", [(1 : ℝ)], "rb", 0, "m"⟩),
           ("cache:" ++ "a", .entry ⟨"pa", [(1 : ℝ)], "ra", 0, "m"⟩)]).1.map
        VectorSearchResult.score = [1, 1]) ∧
      ("cache:" ++ "a" : String) < "cache:" ++ "b" := by
  have h1 : cosineSimilarity [(1 : ℝ)] [(1 : ℝ)] = 1 :=
    cosineSimilarity_self (by simp [normSq])
  have hfb : (List.find? (fun p => p.1 == ("cache:" ++ "b"))
      [(("cache:" ++ "b" : String),
          StoredJson.entry ⟨"pb", [(1 : ℝ)], "rb", 0, "m"⟩),
       (("cache:" ++ "a" : String),
          StoredJson.entry ⟨"pa", [(1 : ℝ)], "ra", 0, "m"⟩)]) =
      some (("cache:" ++ "b" : String),
        StoredJson.entry ⟨"pb", [(1 : ℝ)], "rb", 0, "m"⟩) := by
    rw [List.find?_cons_of_pos _ (by decide)]
  have hfa : (List.find? (fun p => p.1 == ("cache:" ++ "a"))
      [(("cache:" ++ "b" : String),
          StoredJson.entry ⟨"pb", [(1 : ℝ)], "rb", 0, "m"⟩),
       (("cache:" ++ "a" : String),
          StoredJson.entry ⟨"pa", [(1 : ℝ)], "ra", 0, "m"⟩)]) =
      some (("cache:" ++ "a" : String),
        StoredJson.entry ⟨"pa", [(1 : ℝ)], "ra", 0, "m"⟩) := by
    rw [List.find?_cons_of_neg _ (by decide),
      List.find?_cons_of_pos _ (by decide)]
  have hloop : searchLoop [(1 : ℝ)] 0
      ["cache:" ++ "b", "cache:" ++ "a"]
      [(("cache:" ++ "b" : String),
          StoredJson.entry ⟨"pb", [(1 : ℝ)], "rb", 0, "m"⟩),
       (("cache:" ++ "a" : String),
          StoredJson.entry ⟨"pa", [(1 : ℝ)], "ra", 0, "m"⟩)] =
      ([⟨"cache:" ++ "b", cosineSimilarity [(1 : ℝ)] [(1 : ℝ)],
          ⟨"pb", [(1 : ℝ)], "rb", 0, "m"⟩⟩,
        ⟨"cache:" ++ "a", cosineSimilarity [(1 : ℝ)] [(1 : ℝ)],
          ⟨"pa", [(1 : ℝ)], "ra", 0, "m"⟩⟩],
       [(("cache:" ++ "b" : String),
           StoredJson.entry ⟨"pb", [(1 : ℝ)], "rb", 0, "m"⟩),
        (("cache:" ++ "a" : String),
           StoredJson.entry ⟨"pa", [(1 : ℝ)], "ra", 0, "m"⟩)]) := by
    rw [searchLoop]
    simp only [jsonGet, hfb, Option.map_some']
    rw [if_pos (by rw [h1]; norm_num)]
    rw [searchLoop]
    simp only [jsonGet, hfa, Option.map_some']
    rw [if_pos (by rw [h1]; norm_num)]
    rfl
  rw [searchSimilar]
  simp only [keysCmd, List.map_cons, List.map_nil, List.filter,
    matchesCachePattern_append]
  rw [if_neg (by simp)]
  rw [hloop]
  simp only [List.insertionSort, List.orderedInsert]
  rw [if_pos (by rw [h1]; exact le_refl 1)]
  refine ⟨?_, ?_, String.lt_iff_toList_lt.mpr (by decide)⟩
  · simp
  · simp [h1]

/-- **C9.** Lookup is pure with respect to the store: the Redis record
collection after `findSimilarCache` equals the collection before it, and
therefore repeating the identical lookup on the resulting state returns
exactly the same outcome (in particular a miss remains a miss under
arbitrarily repeated identical lookups). -/
theorem c9_lookup_preserves_state (ai : EmbeddingProvider) (threshold : ℝ)
    (p : String) (st : RedisState) :
    (findSimilarCache ai threshold p st).state = st ∧
      findSimilarCache ai threshold p
          ((findSimilarCache ai threshold p st).state) =
        findSimilarCache ai threshold p st := by
  have hstate : (findSimilarCache ai threshold p st).state = st := by
    unfold findSimilarCache generateEmbedding
    cases h : ai.run p with
    | error err => rfl
    | ok emb =>
      dsimp only
      have h2 := searchSimilar_state emb threshold 1 st
      cases hs : searchSimilar emb threshold 1 st with
      | mk res st2 =>
        rw [hs] at h2
        cases res <;> exact h2
  exact ⟨hstate, by rw [hstate]⟩

/-! ### Search results carry the prefixed key as their id -/

lemma searchSimilar_singleton_entry_limit (emb : List ℝ) (threshold : ℝ)
    (lim : Nat) (s : String) (e : CachedEntry) :
    searchSimilar emb threshold lim [("cache:" ++ s, .entry e)] =
      ((if threshold ≤ cosineSimilarity emb e.embedding then
          [⟨"cache:" ++ s, cosineSimilarity emb e.embedding, e⟩]
        else []).take lim, [("cache:" ++ s, .entry e)]) := by
  unfold searchSimilar
  rw [keysCmd_singleton]
  simp only [List.isEmpty_cons, Bool.false_eq_true, if_false,
    searchLoop_singleton_entry]
  by_cases h : threshold ≤ cosineSimilarity emb e.embedding
  · simp only [if_pos h]
    simp [List.insertionSort, List.orderedInsert]
  · simp only [if_neg h]
    simp [List.insertionSort]

/-- **C10.** `store(i, e)` persists the record under the key
`"cache:" ++ i`, and every result that `searchSimilar` then returns for it
carries that prefixed key as its `id` — never the bare `i` — together with
the stored entry as its `data`. -/
theorem c10_search_reports_prefixed_key (i : String) (e : CachedEntry)
    (emb : List ℝ) (threshold : ℝ) (lim : Nat) (r : VectorSearchResult)
    (hr : r ∈ (searchSimilar emb threshold lim
        (RedisVectorStore.store i e [])).1) :
    r.id = "cache:" ++ i ∧ r.data = e := by
  rw [store_nil, searchSimilar_singleton_entry_limit] at hr
  replace hr := List.take_subset _ _ hr
  by_cases h : threshold ≤ cosineSimilarity emb e.embedding
  · rw [if_pos h] at hr
    rw [List.mem_singleton.mp hr]
    exact ⟨rfl, rfl⟩
  · rw [if_neg h] at hr
    simp at hr

/-- Witness for C10 at a concrete store-then-search. -/
theorem c10_search_reports_prefixed_key_witness :
    (⟨"cache:" ++ "w10", cosineSimilarity [(1 : ℝ)] [(1 : ℝ)],
        ⟨"pw", [(1 : ℝ)], "rw", 0, "mw"⟩⟩ : VectorSearchResult).id =
        "cache:" ++ "w10" ∧
      (⟨"cache:" ++ "w10", cosineSimilarity [(1 : ℝ)] [(1 : ℝ)],
        ⟨"pw", [(1 : ℝ)], "rw", 0, "mw"⟩⟩ : VectorSearchResult).data =
        ⟨"pw", [(1 : ℝ)], "rw", 0, "mw"⟩ := by
  refine c10_search_reports_prefixed_key "w10"
    ⟨"pw", [(1 : ℝ)], "rw", 0, "mw"⟩ [(1 : ℝ)] 0 1 _ ?_
  rw [store_nil, searchSimilar_singleton_entry_limit]
  have h1 : cosineSimilarity [(1 : ℝ)] [(1 : ℝ)] = 1 :=
    cosineSimilarity_self (by simp [normSq])
  rw [if_pos (by rw [h1]; norm_num)]
  simp

/-! ### Corrupt records never abort the search -/

/-- Whether a stored payload decodes to a cache entry. -/
def StoredJson.isEntry : StoredJson → Bool
  | .entry _ => true
  | .corrupt => false

/-- The contribution of a single stored key/payload pair to the retained
(unsorted) results of a search: a match if the key fits the `cache:*`
pattern, the payload decodes, and the score reaches the threshold. -/
noncomputable def searchResultOf (emb : List ℝ) (threshold : ℝ)
    (p : String × StoredJson) : Option VectorSearchResult :=
  if matchesCachePattern p.1 then
    match p.2 with
    | .entry e =>
      if threshold ≤ cosineSimilarity emb e.embedding then
        some ⟨p.1, cosineSimilarity emb e.embedding, e⟩
      else none
    | .corrupt => none
  else none

lemma searchLoop_eq_filterMap (emb : List ℝ) (threshold : ℝ) :
    ∀ (ks : List String) (st : RedisState),
      (searchLoop emb threshold ks st).1 =
        ks.filterMap (fun k =>
          match (st.find? fun p => p.1 == k).map Prod.snd with
          | some (.entry e) =>
            if threshold ≤ cosineSimilarity emb e.embedding then
              some ⟨k, cosineSimilarity emb e.embedding, e⟩
            else none
          | _ => none) := by
  intro ks
  induction ks with
  | nil => intro st; rfl
  | cons k ks ih =>
    intro st
    rw [searchLoop, List.filterMap_cons]
    simp only [jsonGet]
    cases hj : (st.find? fun p => p.1 == k).map Prod.snd with
    | none => exact ih st
    | some v =>
      cases v with
      | corrupt => exact ih st
      | entry e =>
        by_cases h : threshold ≤ cosineSimilarity emb e.embedding
        · simp only [if_pos h]
          rw [show (searchLoop emb threshold ks ((st.find? fun p =>
            p.1 == k).map Prod.snd, st).2).1 =
              (searchLoop emb threshold ks st).1 from rfl, ih st]
        · simp only [if_neg h]
          exact ih st

lemma find?_eq_of_nodup :
    ∀ {st : RedisState}, (st.map Prod.fst).Nodup →
      ∀ {p : String × StoredJson}, p ∈ st →
        st.find? (fun q => q.1 == p.1) = some p := by
  intro st
  induction st with
  | nil => intro _ p hp; simp at hp
  | cons a l ih =>
    intro hnd p hp
    have hnd' : (a.1 :: l.map Prod.fst).Nodup := by simpa using hnd
    obtain ⟨hnotin, htail⟩ := List.nodup_cons.mp hnd'
    rcases List.mem_cons.mp hp with rfl | hmem
    · rw [List.find?_cons_of_pos _ (by simp)]
    · have hne : (a.1 == p.1) = false := by
        simp only [beq_eq_false_iff_ne, ne_eq]
        intro hkeq
        exact hnotin (hkeq ▸ List.mem_map_of_mem Prod.fst hmem)
      rw [List.find?_cons_of_neg _ (by simp [hne])]
      exact ih htail hmem

lemma keys_filterMap_eq (emb : List ℝ) (threshold : ℝ) :
    ∀ (st stAll : RedisState),
      (∀ p ∈ st, stAll.find? (fun q => q.1 == p.1) = some p) →
      ((st.map Prod.fst).filter matchesCachePattern).filterMap (fun k =>
          match (stAll.find? fun p => p.1 == k).map Prod.snd with
          | some (.entry e) =>
            if threshold ≤ cosineSimilarity emb e.embedding then
              some ⟨k, cosineSimilarity emb e.embedding, e⟩
            else none
          | _ => none) =
        st.filterMap (searchResultOf emb threshold) := by
  intro st
  induction st with
  | nil => intro _ _; rfl
  | cons p rest ih =>
    intro stAll hfind
    have hp := hfind p (List.mem_cons_self _ _)
    have hrest : ∀ q ∈ rest, stAll.find? (fun x => x.1 == q.1) = some q :=
      fun q hq => hfind q (List.mem_cons_of_mem _ hq)
    simp only [List.map_cons, List.filter_cons]
    by_cases hm : matchesCachePattern p.1
    · simp only [hm, if_true, List.filterMap_cons, hp, Option.map_some',
        searchResultOf]
      cases hv : p.2 with
      | entry e =>
        by_cases h : threshold ≤ cosineSimilarity emb e.embedding
        · simp only [if_pos h]
          rw [ih stAll hrest]
        · simp only [if_neg h]
          exact ih stAll hrest
      | corrupt => exact ih stAll hrest
    · have hm' : matchesCachePattern p.1 = false := by
        simpa using hm
      simp only [hm', Bool.false_eq_true, if_false, List.filterMap_cons,
        searchResultOf, hm', Bool.false_eq_true, if_false]
      exact ih stAll hrest

lemma searchResultOf_corrupt (emb : List ℝ) (threshold : ℝ) (k : String) :
    searchResultOf emb threshold (k, .corrupt) = none := by
  unfold searchResultOf
  by_cases hm : matchesCachePattern k
  · simp only [hm, if_true]
  · simp only [hm, Bool.false_eq_true, if_false]

lemma filterMap_searchResultOf_filter (emb : List ℝ) (threshold : ℝ) :
    ∀ st : RedisState,
      (st.filter fun p => p.2.isEntry).filterMap
          (searchResultOf emb threshold) =
        st.filterMap (searchResultOf emb threshold) := by
  intro st
  induction st with
  | nil => rfl
  | cons p rest ih =>
    rcases p with ⟨k, v⟩
    cases v with
    | entry e =>
      have hf : (((k, StoredJson.entry e) :: rest).filter
          fun p => p.2.isEntry) =
          (k, StoredJson.entry e) :: rest.filter (fun p => p.2.isEntry) := by
        simp [List.filter_cons, StoredJson.isEntry]
      rw [hf, List.filterMap_cons, List.filterMap_cons, ih]
    | corrupt =>
      have hf : (((k, StoredJson.corrupt) :: rest).filter
          fun p => p.2.isEntry) = rest.filter (fun p => p.2.isEntry) := by
        simp [List.filter_cons, StoredJson.isEntry]
      rw [hf, List.filterMap_cons, searchResultOf_corrupt]
      exact ih

lemma filterMap_searchResultOf_of_no_keys (emb : List ℝ) (threshold : ℝ) :
    ∀ st : RedisState,
      ((st.map Prod.fst).filter matchesCachePattern).isEmpty = true →
      st.filterMap (searchResultOf emb threshold) = [] := by
  intro st
  induction st with
  | nil => intro _; rfl
  | cons p rest ih =>
    intro h
    simp only [List.map_cons, List.filter_cons] at h
    by_cases hm : matchesCachePattern p.1
    · rw [if_pos hm] at h
      simp at h
    · have hm' : matchesCachePattern p.1 = false := by simpa using hm
      rw [hm'] at h
      simp only [Bool.false_eq_true, if_false] at h
      simp only [List.filterMap_cons, searchResultOf, hm',
        Bool.false_eq_true, if_false]
      exact ih h

lemma searchSimilar_eq_canonical (emb : List ℝ) (threshold : ℝ)
    (lim : Nat) (st : RedisState) (hnd : (st.map Prod.fst).Nodup) :
    (searchSimilar emb threshold lim st).1 =
      ((st.filterMap (searchResultOf emb threshold)).insertionSort
          scoreDescOrder).take lim := by
  rw [searchSimilar]
  simp only [keysCmd]
  rw [apply_ite Prod.fst]
  split
  · rw [filterMap_searchResultOf_of_no_keys emb threshold st (by assumption)]
    simp [List.insertionSort]
  · rw [searchLoop_eq_filterMap,
      keys_filterMap_eq emb threshold st st
        (fun p hp => find?_eq_of_nodup hnd hp)]

/-- **C8.** Corrupt-record resilience: over a store whose keys are distinct
(as Redis guarantees), the search returns exactly what it returns on the
store with all undecodable records removed — each malformed record is
skipped silently, contributes no match, and the matches of every decodable
record are still produced. -/
theorem c8_corrupt_records_skipped (emb : List ℝ) (threshold : ℝ)
    (lim : Nat) (st : RedisState) (hnd : (st.map Prod.fst).Nodup) :
    (searchSimilar emb threshold lim st).1 =
      (searchSimilar emb threshold lim
        (st.filter fun p => p.2.isEntry)).1 := by
  have hnd2 : ((st.filter fun p => p.2.isEntry).map Prod.fst).Nodup :=
    List.Nodup.sublist (List.Sublist.map Prod.fst (List.filter_sublist st))
      hnd
  rw [searchSimilar_eq_canonical emb threshold lim st hnd,
    searchSimilar_eq_canonical emb threshold lim _ hnd2,
    filterMap_searchResultOf_filter]

/-- Witness for C8: a store with one good record and one corrupt record. -/
theorem c8_corrupt_records_skipped_witness :
    (([("cache:" ++ "g", StoredJson.entry ⟨"p", [(1 : ℝ)], "r", 0, "m"⟩),
        ("cache:" ++ "bad", StoredJson.corrupt)].map Prod.fst).Nodup) ∧
      (searchSimilar [(1 : ℝ)] 0.9 1
          [("cache:" ++ "g", StoredJson.entry ⟨"p", [(1 : ℝ)], "r", 0, "m"⟩),
           ("cache:" ++ "bad", StoredJson.corrupt)]).1 =
        (searchSimilar [(1 : ℝ)] 0.9 1
          ([("cache:" ++ "g", StoredJson.entry ⟨"p", [(1 : ℝ)], "r", 0, "m"⟩),
            ("cache:" ++ "bad", StoredJson.corrupt)].filter
              fun p => p.2.isEntry)).1 := by
  constructor
  · decide
  · exact c8_corrupt_records_skipped [(1 : ℝ)] 0.9 1
      [("cache:" ++ "g", StoredJson.entry ⟨"p", [(1 : ℝ)], "r", 0, "m"⟩),
       ("cache:" ++ "bad", StoredJson.corrupt)] (by decide)
